import Mathlib

/-!
# w1 raspberry pi sensors logger (`sensors.c`)

A shallow embedding of `sensors.c` and the properties of its acquisition and
persistence loops.

Modelling conventions

* A C character buffer is a `List Char`; the C string held in a buffer is the
  part before its first NUL character (`cstr`).
* An open `FILE *` is the list of characters not yet read.  `fopen` is the
  lookup of a path in a file system `String → Option (List Char)`; `none` is a
  path that cannot be opened.
* `int` values are `Int`; the only arithmetic of the program is inside
  `atoi`, whose result is reduced to 32 bits.  The `time_t` timestamp is an
  `Int` as well, and `%d` prints it reduced to 32 bits.
* The sentinel-terminated arrays `__sensors` and `__dbfile` are the lists of
  their entries (for `__sensors`: the entries before the `NULL` device).
* The outside world (`World`) answers `time`, `fopen`, `sqlite3_open` and
  `sqlite3_exec`.  The number of calls of `sensors_read` made so far is the
  clock of the run: the file system and the system time may change at every
  tick.
* The retry loop of `main` is unbounded; it is embedded with a fuel argument
  that bounds the number of iterations of each `while` loop.
-/

namespace Sensors

/-! ## Constants and data -/

/-- The `#define SENSOR_ERROR -1250`. -/
def SENSOR_ERROR : Int := -1250

/-- The `#define SENSOR_INVALID -999999`. -/
def SENSOR_INVALID : Int := -999999

/-- The global `__dbfile`. -/
def __dbfile : List String := ["temp.sqlite3", "/tmp/fallback.sqlite3"]

/-- The `struct sensors_t`. -/
structure sensors_t where
  id : Int
  value : Int
  name : String
  dev : String
deriving DecidableEq, Repr

/-- The global `__sensors` (entries before the `NULL` sentinel; the `value`
field of a static object starts at zero). -/
def __sensors : List sensors_t :=
  [ { id := 1, value := 0, name := "ambiant", dev := "10-000802775cc7" },
    { id := 2, value := 0, name := "rack", dev := "10-000802776315" } ]

/-! ## C library functions used by the program -/

/-- The NUL character. -/
def NUL : Char := Char.ofNat 0

/-- The C string held in a buffer: the characters before the first NUL. -/
def cstr (buffer : List Char) : List Char :=
  buffer.takeWhile (fun c => c != NUL)

/-- The call `strstr(haystack, needle)`: the suffix of `haystack` that starts at the
first occurrence of `needle`, `none` for a `NULL` result. -/
def strstr : List Char → List Char → Option (List Char)
  | [], needle => if needle.isEmpty then some [] else none
  | c :: cs, needle =>
    if needle.isPrefixOf (c :: cs) then some (c :: cs) else strstr cs needle

/-- Reads at most `n` characters, stopping after a newline: the characters
read and the rest of the stream. -/
def fgets_chars : Nat → List Char → List Char × List Char
  | 0, fp => ([], fp)
  | _ + 1, [] => ([], [])
  | n + 1, c :: cs =>
    if c = '\n' then ([c], cs)
    else ((c :: (fgets_chars n cs).1), (fgets_chars n cs).2)

/-- The call `fgets(buffer, size, fp)`: `none` when the stream is at its end (a
`NULL` result, which a read error gives as well), else the buffer contents and
the rest of the stream. -/
def fgets (size : Nat) (fp : List Char) : Option (List Char × List Char) :=
  if fp.isEmpty then none else some (fgets_chars (size - 1) fp)

/-- The C `isspace` in the C locale. -/
def isspace (c : Char) : Bool :=
  c = ' ' || c = '\t' || c = '\n' || c = Char.ofNat 11 || c = Char.ofNat 12 || c = '\r'

/-- The C `isdigit`. -/
def isdigit (c : Char) : Bool :=
  decide (48 ≤ c.toNat) && decide (c.toNat ≤ 57)

/-- The digit loop of `atoi`: accumulates the leading decimal digits. -/
def atoi_digits : Nat → List Char → Nat
  | acc, [] => acc
  | acc, c :: cs =>
    if isdigit c then atoi_digits (10 * acc + (c.toNat - 48)) cs else acc

/-- Reduction of an integer to a 32-bit `int`. -/
def to_int32 (x : Int) : Int :=
  (x + 2147483648) % 4294967296 - 2147483648

/-- The call `atoi(s)`: skips white space, reads an optional sign and the leading
decimal digits.  A value outside `int` is undefined in C; here it is reduced to
32 bits. -/
def atoi (s : List Char) : Int :=
  match s.dropWhile isspace with
  | [] => to_int32 0
  | c :: r =>
    if c = '-' then to_int32 (-(atoi_digits 0 r : Int))
    else if c = '+' then to_int32 (atoi_digits 0 r : Int)
    else to_int32 (atoi_digits 0 (c :: r) : Int)

/-! ## The functions of `sensors.c` -/

/-- The function `sensors_reset`. -/
def sensors_reset (sensors : sensors_t) : sensors_t :=
  { sensors with value := SENSOR_ERROR }

/-- The function `sensors_checksum`. -/
def sensors_checksum (buffer : List Char) : Int :=
  if (strstr (cstr buffer) "YES".toList).isSome then 1 else 0

/-- The function `sensors_value`. -/
def sensors_value (buffer : List Char) : Int :=
  match strstr (cstr buffer) " t=".toList with
  | none => SENSOR_ERROR
  | some str => atoi (str.drop 3)

/-- The file name built by `sprintf` in `sensors_read` (the 256 bytes of
`filename` hold it for the device names of the registry). -/
def w1_slave (dev : String) : String :=
  "/sys/bus/w1/devices/" ++ dev ++ "/w1_slave"

/-- A file system: the contents of the paths that can be opened. -/
abbrev Files := String → Option (List Char)

/-- The function `sensors_read`: the returned `int` and the sensor after the call. -/
def sensors_read (fs : Files) (sensor : sensors_t) : Int × sensors_t :=
  match fs (w1_slave sensor.dev) with
  | none => (SENSOR_INVALID, sensor)
  | some fp =>
    match fgets 1024 fp with
    | none => (sensor.value, sensor)
    | some (buffer, fp) =>
      if sensors_checksum buffer = 0 then (sensor.value, sensor)
      else
        match fgets 1024 fp with
        | none => (sensor.value, sensor)
        | some (buffer, _) =>
          (sensors_value buffer, { sensor with value := sensors_value buffer })

/-- An INSERT statement, by the three numbers that the format
`INSERT INTO w1temp (time, id, value) VALUES (%d, %d, %d)` prints in
`sensors_update_db`. -/
structure Insert where
  time : Int
  id : Int
  value : Int
deriving DecidableEq, Repr

/-- The function `sqlite_simple_query`: `exec` tells whether `sqlite3_exec` accepts
the statement; the result is 0 on success and 1 on failure. -/
def sqlite_simple_query (exec : Insert → Bool) (sql : Insert) : Int :=
  if exec sql then 0 else 1

/-- The function `sensors_update_db`: the statement issued and the result of
`sqlite_simple_query`, which the C function drops.  The `time_t` timestamp is
printed with `%d`, which takes an `int`: the statement carries the timestamp
reduced to 32 bits.  The id and the value are `int` already. -/
def sensors_update_db (exec : Insert → Bool) (timestamp : Int) (sensor : sensors_t) :
    Insert × Int :=
  ({ time := to_int32 timestamp, id := sensor.id, value := sensor.value },
   sqlite_simple_query exec
     { time := to_int32 timestamp, id := sensor.id, value := sensor.value })

/-! ## The outside world and `main` -/

/-- The answers of the environment during one run.  `fopen t` is the file
system seen by the call of `sensors_read` made after `t` earlier calls, `time t`
the system time at that moment, `sqlite3_open db path` tells whether store
number `db` opens, and `sqlite3_exec db i sql` whether the statement number `i`
sent to store `db` succeeds. -/
structure World where
  time : Nat → Int
  fopen : Nat → Files
  sqlite3_open : Nat → String → Bool
  sqlite3_exec : Nat → Nat → Insert → Bool

/-- One call of `sensors_read` in the acquisition loop: the clock, the sensor
at the entry of the call and the value returned. -/
structure Call where
  clock : Nat
  entry : sensors_t
  ret : Int
deriving DecidableEq, Repr

/-- The line `main` prints for a sensor after its retry loop: the
`device error` diagnostic or the line with the value read. -/
inductive Report where
  | device_error (id : Int)
  | value_read (id : Int) (name : String) (value : Int)
deriving DecidableEq, Repr

/-- The loop `while((value = sensors_read(sensor)) == SENSOR_ERROR)` of `main`,
started at clock `t`: the calls made and, when the loop ends within the fuel,
the last `value` and the sensor after the loop. -/
def read_loop (w : World) : Nat → Nat → sensors_t → List Call × Option (Int × sensors_t)
  | 0, _, _ => ([], none)
  | fuel + 1, t, sensor =>
    if (sensors_read (w.fopen t) sensor).1 = SENSOR_ERROR then
      ({ clock := t, entry := sensor, ret := (sensors_read (w.fopen t) sensor).1 } ::
          (read_loop w fuel (t + 1) (sensors_read (w.fopen t) sensor).2).1,
        (read_loop w fuel (t + 1) (sensors_read (w.fopen t) sensor).2).2)
    else
      ([{ clock := t, entry := sensor, ret := (sensors_read (w.fopen t) sensor).1 }],
        some ((sensors_read (w.fopen t) sensor).1, (sensors_read (w.fopen t) sensor).2))

/-- What the acquisition loop leaves for one sensor. -/
structure Acquired where
  sensor : sensors_t
  calls : List Call
  report : Report
deriving DecidableEq, Repr

/-- The body of the first `for` loop of `main` after the retry loop: the
`device error` branch or the line with the value. -/
def report_of (value : Int) (sensor : sensors_t) : Report :=
  if value = SENSOR_INVALID then Report.device_error sensor.id
  else Report.value_read sensor.id sensor.name sensor.value

/-- The first `for` loop of `main` (foreach sensors), started at clock `t`: the
calls of `sensors_read` made for each sensor reached and, when every retry loop
ends within the fuel, what the loop leaves for each sensor. -/
def acquire (w : World) (fuel : Nat) :
    Nat → List sensors_t → List (List Call) × Option (List Acquired)
  | _, [] => ([], some [])
  | t, sensor :: rest =>
    match read_loop w fuel t (sensors_reset sensor) with
    | (calls, none) => ([calls], none)
    | (calls, some (value, s)) =>
      (calls :: (acquire w fuel (t + calls.length) rest).1,
        match (acquire w fuel (t + calls.length) rest).2 with
        | none => none
        | some acq =>
          some ({ sensor := s, calls := calls, report := report_of value s } :: acq))

/-- The inner `for` loop of the saving phase for store `db`: one
`sensors_update_db` per sensor, `i` being the index of the statement. -/
def update_all (w : World) (db : Nat) (timestamp : Int) :
    Nat → List sensors_t → List (Insert × Int)
  | _, [] => []
  | i, sensor :: rest =>
    sensors_update_db (w.sqlite3_exec db i) timestamp sensor ::
      update_all w db timestamp (i + 1) rest

/-- What happened to one store path: whether `sqlite_init` opened it and the
statements sent to it, each with the result of `sqlite_simple_query`. -/
structure Store where
  path : String
  opened : Bool
  queries : List (Insert × Int)
deriving DecidableEq, Repr

/-- The second `for` loop of `main` (saving values), from store number `db`:
the exit status and the stores touched, in order. -/
def save (w : World) (timestamp : Int) (sensors : List sensors_t) :
    Nat → List String → Int × List Store
  | _, [] => (0, [])
  | db, file :: rest =>
    if w.sqlite3_open db file then
      ((save w timestamp sensors (db + 1) rest).1,
        { path := file, opened := true, queries := update_all w db timestamp 0 sensors } ::
          (save w timestamp sensors (db + 1) rest).2)
    else (1, [{ path := file, opened := false, queries := [] }])

/-- A finished run of `main`. -/
structure Run where
  status : Int
  timestamp : Int
  acquired : List Acquired
  stores : List Store
deriving DecidableEq, Repr

/-- The function `main`, over the registry `sensors` and the store paths `dbfile`
(the globals `__sensors` and `__dbfile` in the program).  `none` when a retry
loop does not end within the fuel. -/
def main (w : World) (fuel : Nat) (sensors : List sensors_t) (dbfile : List String) :
    Option Run :=
  match (acquire w fuel 0 sensors).2 with
  | none => none
  | some acq =>
    some { status := (save w (w.time 0) (acq.map Acquired.sensor) 0 dbfile).1,
           timestamp := w.time 0,
           acquired := acq,
           stores := (save w (w.time 0) (acq.map Acquired.sensor) 0 dbfile).2 }

/-! ## Specification vocabulary -/

/-- The first line of a text: the characters before the first newline. -/
def first_line (text : List Char) : List Char :=
  text.takeWhile (fun c => c != '\n')

/-- The number written by decimal digits, most significant digit first. -/
def decimal (ds : List Char) : Nat :=
  Nat.ofDigits 10 (ds.reverse.map (fun c => c.toNat - 48))

/-- The text `num` is a signed decimal integer that writes `n`: a non-empty run
of digits, alone or after one sign character. -/
def writes (num : List Char) (n : Int) : Prop :=
  ∃ ds : List Char, ds ≠ [] ∧ (∀ c ∈ ds, isdigit c = true) ∧
    ((num = ds ∧ n = (decimal ds : Int)) ∨ (num = '+' :: ds ∧ n = (decimal ds : Int)) ∨
      (num = '-' :: ds ∧ n = -(decimal ds : Int)))

/-- The text is a status text with the reading `n`: a first line of at most
1022 characters without NUL that contains `YES`, then a second line of at most
1022 characters without NUL in which the first ` t=` is followed at once by a
signed decimal integer that writes `n`, itself followed by a character that is
not a digit or by the end of the line; `n` fits a 32-bit `int`. -/
def reading (text : List Char) (n : Int) : Prop :=
  ∃ l1 before num after rest : List Char,
    text = l1 ++ '\n' :: ((before ++ " t=".toList ++ num ++ after) ++ rest) ∧
    l1.length ≤ 1022 ∧ '\n' ∉ l1 ∧ NUL ∉ l1 ∧ "YES".toList <:+: l1 ∧
    (before ++ " t=".toList ++ num ++ after).length ≤ 1022 ∧
    '\n' ∉ before ++ " t=".toList ++ num ++ after ∧
    NUL ∉ before ++ " t=".toList ++ num ++ after ∧
    ¬ " t=".toList <:+: before ++ " t".toList ∧
    writes num n ∧ (∀ c ∈ after.head?, isdigit c = false) ∧
    (∀ c ∈ rest.head?, c = '\n') ∧
    -2147483648 ≤ n ∧ n ≤ 2147483647

/-- The attempt on the opened text is a transient failure: a line cannot be
read, the first buffer fails the checksum, or the second buffer has no ` t=`
marker. -/
def transient (text : List Char) : Prop :=
  fgets 1024 text = none ∨
    ∃ b1 fp1, fgets 1024 text = some (b1, fp1) ∧
      (sensors_checksum b1 = 0 ∨ fgets 1024 fp1 = none ∨
        ∃ b2 fp2, fgets 1024 fp1 = some (b2, fp2) ∧ strstr (cstr b2) " t=".toList = none)

/-! ## Concrete inputs -/

/-- The first entry of `__sensors`. -/
def ambiant : sensors_t :=
  { id := 1, value := 0, name := "ambiant", dev := "10-000802775cc7" }

/-- The second entry of `__sensors`. -/
def rack : sensors_t :=
  { id := 2, value := 0, name := "rack", dev := "10-000802776315" }

/-- The good sample of the source comments, as the two lines of a status file. -/
def good_text : List Char :=
  "2a 00 4b 46 ff ff 0e 10 84 : crc=84 YES\n2a 00 4b 46 ff ff 0e 10 84 t=20875\n".toList

/-- The bad sample of the source comments, followed by a data line. -/
def bad_text : List Char :=
  "ff ff ff ff ff ff ff ff ff : crc=c9 NO\nff ff ff ff ff ff ff ff ff t=85000\n".toList

/-- A status text whose data line holds the marker twice. -/
def twice_text : List Char :=
  "2a 00 4b 46 ff ff 0e 10 84 : crc=84 YES\n2a 00 4b 46 ff ff 0e 10 84 t=1 t=20875\n".toList

/-- A checksum-valid status text that reports -1.25 degrees. -/
def minus_text : List Char :=
  "fe ff 4b 46 ff ff 10 10 5e : crc=5e YES\nfe ff 4b 46 ff ff 10 10 5e t=-1250\n".toList

/-- A checksum-valid status text whose data line has no marker. -/
def no_marker_text : List Char :=
  "2a 00 4b 46 ff ff 0e 10 84 : crc=84 YES\n2a 00 4b 46 ff ff 0e 10 84\n".toList

/-- A status text whose first line has 1027 characters, `YES` at its start and
` t=5` at its end, and whose second line is `x`. -/
def long_text : List Char :=
  ("YES".toList ++ List.replicate 1020 'f' ++ " t=5".toList) ++ '\n' :: "x\n".toList

/-- A world in which the first sensor fails its checksum twice and then reads,
the second sensor reads at once, every store opens and every statement
succeeds. -/
def world_retry : World :=
  { time := fun t => 1700000000 + t
    fopen := fun t path =>
      if path = w1_slave "10-000802775cc7" then
        (if t < 2 then some bad_text else some good_text)
      else if path = w1_slave "10-000802776315" then some good_text
      else none
    sqlite3_open := fun _ _ => true
    sqlite3_exec := fun _ _ _ => true }

/-- A world in which the device of the first sensor cannot be opened and the
second sensor reads at once. -/
def world_absent : World :=
  { time := fun t => 1700000000 + t
    fopen := fun _ path =>
      if path = w1_slave "10-000802776315" then some good_text else none
    sqlite3_open := fun _ _ => true
    sqlite3_exec := fun _ _ _ => true }

/-- A world in which the first sensor reports -1.25 degrees on the first
attempt and 20.875 degrees afterwards. -/
def world_minus : World :=
  { time := fun t => 1700000000 + t
    fopen := fun t path =>
      if path = w1_slave "10-000802775cc7" then
        (if t < 1 then some minus_text else some good_text)
      else if path = w1_slave "10-000802776315" then some good_text
      else none
    sqlite3_open := fun _ _ => true
    sqlite3_exec := fun _ _ _ => true }

/-- A world in which both sensors read at once, the second store does not open
and the statement for the first sensor fails in the first store. -/
def world_store_fails : World :=
  { time := fun t => 1700000000 + t
    fopen := fun _ _ => some good_text
    sqlite3_open := fun db _ => decide (db = 0)
    sqlite3_exec := fun _ i _ => decide (i ≠ 0) }

/-- A world like `world_retry` whose system time is 2147483648 at clock 0, the
first second that does not fit a 32-bit `int`. -/
def world_late : World :=
  { time := fun t => 2147483648 + t
    fopen := fun t path =>
      if path = w1_slave "10-000802775cc7" then
        (if t < 2 then some bad_text else some good_text)
      else if path = w1_slave "10-000802776315" then some good_text
      else none
    sqlite3_open := fun _ _ => true
    sqlite3_exec := fun _ _ _ => true }

/-! ## Lemmas on the C library functions -/

theorem strstr_eq_none_iff (needle : List Char) :
    ∀ l : List Char, strstr l needle = none ↔ ¬ needle <:+: l
  | [] => by
    cases needle with
    | nil => simp [strstr]
    | cons a as => simp [strstr]
  | c :: cs => by
    have ih := strstr_eq_none_iff needle cs
    by_cases hp : needle.isPrefixOf (c :: cs) = true
    · have hp2 : needle <+: c :: cs := List.isPrefixOf_iff_prefix.mp hp
      simp [strstr, hp, List.infix_cons_iff, hp2]
    · have hp2 : ¬ needle <+: c :: cs := fun h => hp (List.isPrefixOf_iff_prefix.mpr h)
      simp only [strstr, hp, Bool.false_eq_true, if_false, ih, List.infix_cons_iff, hp2,
        false_or]

theorem strstr_first (needle suf : List Char) :
    ∀ pre : List Char, ¬ needle <:+: pre ++ needle.dropLast →
      strstr (pre ++ needle ++ suf) needle = some (needle ++ suf)
  | [], _ => by
    cases h : needle ++ suf with
    | nil =>
      obtain ⟨hn, hs⟩ := List.append_eq_nil.mp h
      subst hn hs
      simp [strstr]
    | cons a as =>
      have hp : needle.isPrefixOf (a :: as) = true := by
        rw [← h]; exact List.isPrefixOf_iff_prefix.mpr (List.prefix_append _ _)
      simp [strstr, h, hp]
  | p :: pre, hno => by
    have hnp : ¬ needle <+: p :: (pre ++ needle ++ suf) := by
      intro hpre
      apply hno
      have h1 : (p :: pre) ++ needle.dropLast <+: p :: (pre ++ needle ++ suf) := by
        have : p :: (pre ++ needle ++ suf) =
            ((p :: pre) ++ needle.dropLast) ++ (needle.drop (needle.length - 1) ++ suf) := by
          have hd : needle.dropLast ++ needle.drop (needle.length - 1) = needle := by
            rw [List.dropLast_eq_take]; exact List.take_append_drop _ _
          simp only [List.cons_append, List.append_assoc, List.cons.injEq, true_and,
            List.append_cancel_left_eq]
          rw [← List.append_assoc, hd]
        rw [this]; exact List.prefix_append _ _
      have hlen : needle.length ≤ ((p :: pre) ++ needle.dropLast).length := by
        simp only [List.cons_append, List.length_cons, List.length_append,
          List.length_dropLast]
        omega
      exact (List.prefix_of_prefix_length_le hpre h1 hlen).isInfix
    have hb : needle.isPrefixOf (p :: (pre ++ needle ++ suf)) = false := by
      cases hb : needle.isPrefixOf (p :: (pre ++ needle ++ suf)) with
      | false => rfl
      | true => exact absurd (List.isPrefixOf_iff_prefix.mp hb) hnp
    have hrest : ¬ needle <:+: pre ++ needle.dropLast := by
      intro h
      exact hno (by
        rw [List.cons_append, List.infix_cons_iff]; exact Or.inr h)
    have ih := strstr_first needle suf pre hrest
    simp only [List.cons_append, List.append_assoc] at hb ih ⊢
    simp only [strstr, hb, Bool.false_eq_true, if_false, ih]

theorem infix_of_infix_concat (needle l : List Char) (c : Char) (hc : c ∉ needle)
    (h : needle <:+: l ++ [c]) : needle <:+: l := by
  obtain ⟨s, t, hst⟩ := h
  rcases List.eq_nil_or_concat t with ht | ⟨t1, c1, ht⟩
  · subst ht
    rcases List.eq_nil_or_concat needle with hn | ⟨n1, c2, hn⟩
    · subst hn; exact List.nil_infix
    · subst hn
      rw [List.append_nil, List.concat_eq_append, ← List.append_assoc] at hst
      have := List.append_inj_right' hst rfl
      simp only [List.cons.injEq, and_true] at this
      subst this
      exact absurd (by simp) hc
  · subst ht
    rw [List.concat_eq_append, ← List.append_assoc] at hst
    have := List.append_inj_left' hst rfl
    exact ⟨s, t1, this⟩

theorem cstr_initial (buffer : List Char) : cstr buffer <+: buffer :=
  List.takeWhile_prefix _

theorem cstr_eq_self (buffer : List Char) (h : NUL ∉ buffer) : cstr buffer = buffer := by
  unfold cstr
  rw [List.takeWhile_eq_self_iff]
  intro c hc
  simp only [bne_iff_ne, ne_eq]
  intro hcn
  exact h (hcn ▸ hc)

theorem fgets_chars_line (r : List Char) :
    ∀ (n : Nat) (l : List Char), '\n' ∉ l → l.length < n →
      fgets_chars n (l ++ '\n' :: r) = (l ++ ['\n'], r)
  | 0, _, _, hlen => absurd hlen (Nat.not_lt_zero _)
  | n + 1, [], _, _ => by simp [fgets_chars]
  | n + 1, c :: cs, hnl, hlen => by
    have hc : c ≠ '\n' := fun h => hnl (h ▸ List.mem_cons_self _ _)
    have hcs : '\n' ∉ cs := fun h => hnl (List.mem_cons_of_mem _ h)
    have ih := fgets_chars_line r n cs hcs (by simpa using hlen)
    simp [fgets_chars, hc, ih]

theorem fgets_chars_last :
    ∀ (n : Nat) (l : List Char), '\n' ∉ l → l.length ≤ n → fgets_chars n l = (l, [])
  | 0, [], _, _ => by simp [fgets_chars]
  | 0, _ :: _, _, hlen => absurd hlen (by simp)
  | n + 1, [], _, _ => by simp [fgets_chars]
  | n + 1, c :: cs, hnl, hlen => by
    have hc : c ≠ '\n' := fun h => hnl (h ▸ List.mem_cons_self _ _)
    have hcs : '\n' ∉ cs := fun h => hnl (List.mem_cons_of_mem _ h)
    have ih := fgets_chars_last n cs hcs (by simpa using hlen)
    simp [fgets_chars, hc, ih]

theorem fgets_chars_within :
    ∀ (n : Nat) (fp : List Char), (fgets_chars n fp).1 <+: first_line fp ++ ['\n']
  | 0, _ => by simp [fgets_chars]
  | _ + 1, [] => by simp [fgets_chars]
  | n + 1, c :: cs => by
    by_cases hc : c = '\n'
    · subst hc
      simp [fgets_chars, first_line]
    · have ih := fgets_chars_within n cs
      have hb : (c != '\n') = true := by simpa using hc
      simp only [fgets_chars, hc, if_false, first_line, List.takeWhile_cons, hb, if_true,
        List.cons_append]
      exact (List.prefix_cons_inj c).mpr ih

theorem to_int32_of_fits (n : Int) (h1 : -2147483648 ≤ n) (h2 : n ≤ 2147483647) :
    to_int32 n = n := by
  unfold to_int32; omega

theorem isdigit_facts (c : Char) (h : isdigit c = true) :
    isspace c = false ∧ c ≠ '-' ∧ c ≠ '+' := by
  have h48 : 48 ≤ c.toNat := by
    simp only [isdigit, Bool.and_eq_true, decide_eq_true_eq] at h; exact h.1
  have ne : ∀ d : Char, d.toNat < 48 → c ≠ d := by
    intro d hd hcd; subst hcd; omega
  refine ⟨?_, ne _ (by decide), ne _ (by decide)⟩
  simp only [isspace, Bool.or_eq_false_iff, decide_eq_false_iff_not]
  exact ⟨⟨⟨⟨⟨ne _ (by decide), ne _ (by decide)⟩, ne _ (by decide)⟩, ne _ (by decide)⟩,
    ne _ (by decide)⟩, ne _ (by decide)⟩

theorem decimal_cons (c : Char) (cs : List Char) :
    decimal (c :: cs) = (c.toNat - 48) * 10 ^ cs.length + decimal cs := by
  simp only [decimal, List.reverse_cons, List.map_append, List.map_cons, List.map_nil,
    Nat.ofDigits_append, Nat.ofDigits_singleton, List.length_map, List.length_reverse]
  ring

theorem atoi_digits_stop (acc : Nat) (after : List Char)
    (h : ∀ c ∈ after.head?, isdigit c = false) : atoi_digits acc after = acc := by
  cases after with
  | nil => rfl
  | cons c cs =>
    have : isdigit c = false := h c (by simp)
    simp [atoi_digits, this]

theorem atoi_digits_append (after : List Char) (h : ∀ c ∈ after.head?, isdigit c = false) :
    ∀ (ds : List Char) (acc : Nat), (∀ c ∈ ds, isdigit c = true) →
      atoi_digits acc (ds ++ after) = acc * 10 ^ ds.length + decimal ds
  | [], acc, _ => by simp [atoi_digits_stop acc after h, decimal]
  | c :: cs, acc, hd => by
    have hc : isdigit c = true := hd c (List.mem_cons_self _ _)
    have ih := atoi_digits_append after h cs (10 * acc + (c.toNat - 48))
      (fun x hx => hd x (List.mem_cons_of_mem _ hx))
    rw [List.cons_append, atoi_digits, if_pos hc, ih, decimal_cons, List.length_cons]
    ring

theorem atoi_writes (num after : List Char) (n : Int) (hw : writes num n)
    (ha : ∀ c ∈ after.head?, isdigit c = false)
    (h1 : -2147483648 ≤ n) (h2 : n ≤ 2147483647) : atoi (num ++ after) = n := by
  obtain ⟨ds, hne, hd, hcase⟩ := hw
  have hval : ∀ r, r = ds → atoi_digits 0 (r ++ after) = decimal ds := by
    intro r hr; subst hr
    simpa using atoi_digits_append after ha r 0 hd
  rcases hcase with ⟨hnum, hn⟩ | ⟨hnum, hn⟩ | ⟨hnum, hn⟩
  · cases ds with
    | nil => exact absurd rfl hne
    | cons c cs =>
      obtain ⟨hsp, hm, hp⟩ := isdigit_facts c (hd c (List.mem_cons_self _ _))
      have hv := hval (c :: cs) rfl
      simp only [List.cons_append] at hv
      subst hnum
      simp only [atoi, List.cons_append, List.dropWhile_cons, hsp, Bool.false_eq_true,
        if_false, hm, hp, hv]
      rw [← hn]; exact to_int32_of_fits n h1 h2
  · subst hnum
    have hv := hval ds rfl
    simp only [atoi, List.cons_append, List.dropWhile_cons]
    have hsp : isspace '+' = false := by decide
    simp only [hsp, Bool.false_eq_true, if_false, hv]
    rw [if_pos trivial, ← hn]; exact to_int32_of_fits n h1 h2
  · subst hnum
    have hv := hval ds rfl
    simp only [atoi, List.cons_append, List.dropWhile_cons]
    have hsp : isspace '-' = false := by decide
    simp only [hsp, Bool.false_eq_true, if_false, hv]
    rw [if_pos trivial, ← hn]; exact to_int32_of_fits n h1 h2

/-! ## Lemmas on `sensors_checksum`, `sensors_value` and `sensors_read` -/

theorem sensors_checksum_of_no_yes (buffer line : List Char)
    (hb : buffer <+: line ++ ['\n']) (hno : ¬ "YES".toList <:+: line) :
    sensors_checksum buffer = 0 := by
  have hnone : strstr (cstr buffer) "YES".toList = none := by
    rw [strstr_eq_none_iff]
    intro h
    have h2 : "YES".toList <:+: line ++ ['\n'] :=
      h.trans ((cstr_initial buffer).trans hb).isInfix
    exact hno (infix_of_infix_concat _ _ _ (by decide) h2)
  unfold sensors_checksum
  rw [hnone]; rfl

theorem sensors_checksum_of_yes (buffer : List Char) (hnul : NUL ∉ buffer)
    (hyes : "YES".toList <:+: buffer) : sensors_checksum buffer ≠ 0 := by
  have hsome : strstr (cstr buffer) "YES".toList ≠ none := by
    rw [cstr_eq_self buffer hnul, Ne, strstr_eq_none_iff]
    exact fun h => h hyes
  cases h : strstr (cstr buffer) "YES".toList with
  | none => exact absurd h hsome
  | some x =>
    unfold sensors_checksum
    rw [h]; simp

theorem sensors_value_of_no_marker (buffer : List Char)
    (hno : ¬ " t=".toList <:+: buffer) : sensors_value buffer = SENSOR_ERROR := by
  have hnone : strstr (cstr buffer) " t=".toList = none := by
    rw [strstr_eq_none_iff]
    exact fun h => hno (h.trans (cstr_initial buffer).isInfix)
  unfold sensors_value
  rw [hnone]

theorem sensors_value_of_marker (before num after : List Char) (n : Int)
    (hnul : NUL ∉ before ++ " t=".toList ++ num ++ after)
    (hfirst : ¬ " t=".toList <:+: before ++ " t".toList)
    (hw : writes num n) (ha : ∀ c ∈ after.head?, isdigit c = false)
    (h1 : -2147483648 ≤ n) (h2 : n ≤ 2147483647) :
    sensors_value (before ++ " t=".toList ++ num ++ after) = n := by
  have hs := strstr_first " t=".toList (num ++ after) before hfirst
  rw [← List.append_assoc] at hs
  simp only [sensors_value, cstr_eq_self _ hnul, hs]
  exact atoi_writes num after n hw ha h1 h2

theorem fgets_line (l r : List Char) (hnl : '\n' ∉ l) (hlen : l.length ≤ 1022) :
    fgets 1024 (l ++ '\n' :: r) = some (l ++ ['\n'], r) := by
  have h := fgets_chars_line r 1023 l hnl (by omega)
  cases l <;> simp_all [fgets]

theorem not_mem_concat (l : List Char) (c d : Char) (h : c ∉ l) (hcd : c ≠ d) :
    c ∉ l ++ [d] := by
  simp only [List.mem_append, List.mem_singleton, not_or]
  exact ⟨h, hcd⟩

theorem sensors_read_of_open_fails (fs : Files) (s : sensors_t)
    (h : fs (w1_slave s.dev) = none) : sensors_read fs s = (SENSOR_INVALID, s) := by
  simp [sensors_read, h]

theorem sensors_read_of_reading (fs : Files) (s : sensors_t) (text : List Char) (n : Int)
    (hopen : fs (w1_slave s.dev) = some text) (h : reading text n) :
    sensors_read fs s = (n, { s with value := n }) := by
  obtain ⟨l1, before, num, after, rest, htext, hlen1, hnl1, hnul1, hyes, hlen2, hnl2, hnul2,
    hfirst, hw, ha, hrest, h1, h2⟩ := h
  subst htext
  have hck : sensors_checksum (l1 ++ ['\n']) ≠ 0 :=
    sensors_checksum_of_yes _ (not_mem_concat _ _ _ hnul1 (by decide))
      (hyes.trans (List.prefix_append _ _).isInfix)
  have hf1 := fgets_line l1 ((before ++ " t=".toList ++ num ++ after) ++ rest) hnl1 hlen1
  have hmark : before ++ " t=".toList ++ num ++ after ≠ [] := by
    simp
  cases rest with
  | nil =>
    have hf2 : fgets 1024 (before ++ " t=".toList ++ num ++ after) =
        some (before ++ " t=".toList ++ num ++ after, []) := by
      have := fgets_chars_last 1023 _ hnl2 (by omega)
      simp only [fgets, Nat.add_one_sub_one, this]
      rw [if_neg]
      simp
    have hv := sensors_value_of_marker before num after n hnul2 hfirst hw ha h1 h2
    simp only [List.append_nil] at hf1
    simp only [sensors_read, hopen, List.append_nil, hf1, if_neg hck, hf2, hv]
  | cons c r =>
    have hc : c = '\n' := hrest c (by simp)
    subst hc
    have hf2 := fgets_line (before ++ " t=".toList ++ num ++ after) r hnl2 hlen2
    have ha2 : ∀ c ∈ (after ++ ['\n']).head?, isdigit c = false := by
      intro c hc
      cases after with
      | nil =>
        simp only [List.nil_append, List.head?_cons, Option.mem_def, Option.some.injEq] at hc
        subst hc; decide
      | cons a as => exact ha c (by simpa using hc)
    have hv := sensors_value_of_marker before num (after ++ ['\n']) n
      (by
        rw [← List.append_assoc]
        exact not_mem_concat _ _ _ hnul2 (by decide))
      hfirst hw ha2 h1 h2
    rw [← List.append_assoc] at hv
    simp only [sensors_read, hopen, hf1, if_neg hck, hf2, hv]

theorem sensors_read_of_no_yes (fs : Files) (s : sensors_t) (text : List Char)
    (hopen : fs (w1_slave s.dev) = some text)
    (hno : ¬ "YES".toList <:+: first_line text) : sensors_read fs s = (s.value, s) := by
  by_cases he : text.isEmpty = true
  · simp [sensors_read, hopen, fgets, he]
  · have hck := sensors_checksum_of_no_yes _ _ (fgets_chars_within 1023 text) hno
    simp [sensors_read, hopen, fgets, he, hck]

theorem sensors_read_of_no_marker (fs : Files) (s : sensors_t) (l1 rest : List Char)
    (hopen : fs (w1_slave s.dev) = some (l1 ++ '\n' :: rest))
    (hlen : l1.length ≤ 1022) (hnl : '\n' ∉ l1) (hnul : NUL ∉ l1)
    (hyes : "YES".toList <:+: l1) (hrest : rest ≠ [])
    (hno : ¬ " t=".toList <:+: first_line rest) :
    sensors_read fs s = (SENSOR_ERROR, { s with value := SENSOR_ERROR }) := by
  have hck : sensors_checksum (l1 ++ ['\n']) ≠ 0 :=
    sensors_checksum_of_yes _ (not_mem_concat _ _ _ hnul (by decide))
      (hyes.trans (List.prefix_append _ _).isInfix)
  have hf1 := fgets_line l1 rest hnl hlen
  have he : rest.isEmpty = false := by
    cases rest with
    | nil => exact absurd rfl hrest
    | cons _ _ => rfl
  have hv : sensors_value (fgets_chars 1023 rest).1 = SENSOR_ERROR := by
    apply sensors_value_of_no_marker
    intro h
    have h2 : " t=".toList <:+: first_line rest ++ ['\n'] :=
      h.trans (fgets_chars_within 1023 rest).isInfix
    exact hno (infix_of_infix_concat _ _ _ (by decide) h2)
  have hf2 : fgets 1024 rest = some (fgets_chars 1023 rest) := by
    simp [fgets, he]
  simp only [sensors_read, hopen, hf1, if_neg hck, hf2, hv]

/-! ## Lemmas on the retry loop -/

theorem SENSOR_INVALID_ne_ERROR : SENSOR_INVALID ≠ SENSOR_ERROR := by decide

theorem sensors_read_of_opened (fs : Files) (s : sensors_t) (text : List Char)
    (hopen : fs (w1_slave s.dev) = some text) :
    (sensors_read fs s).2 = { s with value := (sensors_read fs s).1 } := by
  simp only [sensors_read, hopen]
  split
  · rfl
  · split
    · rfl
    · split <;> rfl

theorem sensors_read_keeps_reset (fs : Files) (s : sensors_t)
    (hs : s.value = SENSOR_ERROR) (hret : (sensors_read fs s).1 = SENSOR_ERROR) :
    (sensors_read fs s).2 = s := by
  cases hopen : fs (w1_slave s.dev) with
  | none => simp [sensors_read, hopen]
  | some text =>
    rw [sensors_read_of_opened fs s text hopen, hret, ← hs]

theorem sensors_read_of_transient (fs : Files) (s : sensors_t) (text : List Char)
    (hs : s.value = SENSOR_ERROR) (hopen : fs (w1_slave s.dev) = some text)
    (ht : transient text) : sensors_read fs s = (SENSOR_ERROR, s) := by
  have key : (sensors_read fs s).1 = SENSOR_ERROR := by
    rcases ht with h | ⟨b1, fp1, h1, h | h | ⟨b2, fp2, h2, h⟩⟩
    · simp only [sensors_read, hopen, h, hs]
    · simp only [sensors_read, hopen, h1, h, if_true, hs]
    · by_cases hc : sensors_checksum b1 = 0
      · simp only [sensors_read, hopen, h1, hc, if_true, hs]
      · simp only [sensors_read, hopen, h1, hc, if_false, h, hs]
    · by_cases hc : sensors_checksum b1 = 0
      · simp only [sensors_read, hopen, h1, hc, if_true, hs]
      · simp only [sensors_read, hopen, h1, hc, if_false, h2, sensors_value, h]
  exact Prod.ext key (sensors_read_keeps_reset fs s hs key)

theorem sensors_read_origin (fs : Files) (s : sensors_t) :
    ((sensors_read fs s).1 = SENSOR_INVALID ∧ fs (w1_slave s.dev) = none) ∨
      (sensors_read fs s).1 = s.value ∨
      ∃ text b1 fp1 b2 fp2, fs (w1_slave s.dev) = some text ∧
        fgets 1024 text = some (b1, fp1) ∧ fgets 1024 fp1 = some (b2, fp2) ∧
        (sensors_read fs s).1 = sensors_value b2 := by
  cases hopen : fs (w1_slave s.dev) with
  | none => exact Or.inl ⟨by simp [sensors_read, hopen], rfl⟩
  | some text =>
    cases h1 : fgets 1024 text with
    | none => exact Or.inr (Or.inl (by simp only [sensors_read, hopen, h1]))
    | some r1 =>
      obtain ⟨b1, fp1⟩ := r1
      by_cases hc : sensors_checksum b1 = 0
      · exact Or.inr (Or.inl (by simp only [sensors_read, hopen, h1, hc, if_true]))
      · cases h2 : fgets 1024 fp1 with
        | none => exact Or.inr (Or.inl (by simp only [sensors_read, hopen, h1, hc, if_false, h2]))
        | some r2 =>
          obtain ⟨b2, fp2⟩ := r2
          exact Or.inr (Or.inr ⟨text, b1, fp1, b2, fp2, rfl, h1, h2,
            by simp only [sensors_read, hopen, h1, hc, if_false, h2]⟩)

theorem read_loop_head (w : World) (fuel t : Nat) (s : sensors_t) :
    (read_loop w (fuel + 1) t s).1.head? =
      some { clock := t, entry := s, ret := (sensors_read (w.fopen t) s).1 } := by
  unfold read_loop
  split <;> rfl

theorem read_loop_calls (w : World) (s : sensors_t) (hs : s.value = SENSOR_ERROR) :
    ∀ (fuel t : Nat), ∀ c ∈ (read_loop w fuel t s).1,
      c.entry = s ∧ c.ret = (sensors_read (w.fopen c.clock) s).1 ∧ t ≤ c.clock ∧
        (c.ret = SENSOR_ERROR →
          (∃ c2 ∈ (read_loop w fuel t s).1, c2.clock = c.clock + 1 ∧ c2.entry = c.entry) ∨
            (read_loop w fuel t s).1.length = fuel)
  | 0, _ => by simp [read_loop]
  | fuel + 1, t => by
    intro c hc
    by_cases hret : (sensors_read (w.fopen t) s).1 = SENSOR_ERROR
    · have hst := sensors_read_keeps_reset (w.fopen t) s hs hret
      have ih := read_loop_calls w s hs fuel (t + 1)
      simp only [read_loop, hret, if_true, hst, List.mem_cons] at hc ⊢
      rcases hc with hc | hc
      · subst hc
        refine ⟨rfl, hret.symm, Nat.le_refl _, fun _ => ?_⟩
        cases fuel with
        | zero => right; simp [read_loop]
        | succ f =>
          left
          have hh := read_loop_head w f (t + 1) s
          cases hl : (read_loop w (f + 1) (t + 1) s).1 with
          | nil => rw [hl] at hh; simp at hh
          | cons c2 cs =>
            rw [hl] at hh
            simp only [List.head?_cons, Option.some.injEq] at hh
            exact ⟨c2, Or.inr (List.mem_cons_self _ _), by rw [hh], by rw [hh]⟩
      · obtain ⟨h1, h2, h3, h4⟩ := ih c hc
        refine ⟨h1, h2, by omega, fun he => ?_⟩
        rcases h4 he with ⟨c2, hc2, hk⟩ | hlen
        · exact Or.inl ⟨c2, Or.inr hc2, hk⟩
        · right; simp [hlen]
    · simp only [read_loop, hret, if_false, List.mem_singleton] at hc ⊢
      subst hc
      exact ⟨rfl, rfl, Nat.le_refl _, fun he => absurd he hret⟩

theorem read_loop_result (w : World) (s : sensors_t) (hs : s.value = SENSOR_ERROR) :
    ∀ (fuel t : Nat) (v : Int) (s2 : sensors_t), (read_loop w fuel t s).2 = some (v, s2) →
      v ≠ SENSOR_ERROR ∧ s2.id = s.id ∧ s2.name = s.name ∧ s2.dev = s.dev ∧
        (s2.value = v ∨ (v = SENSOR_INVALID ∧ s2.value = SENSOR_ERROR))
  | 0, _, _, _ => by simp [read_loop]
  | fuel + 1, t, v, s2 => by
    intro h
    by_cases hret : (sensors_read (w.fopen t) s).1 = SENSOR_ERROR
    · have hst := sensors_read_keeps_reset (w.fopen t) s hs hret
      simp only [read_loop, hret, if_true, hst] at h
      exact read_loop_result w s hs fuel (t + 1) v s2 h
    · simp only [read_loop, hret, if_false, Option.some.injEq, Prod.mk.injEq] at h
      obtain ⟨hv, hs2⟩ := h
      subst hv
      refine ⟨hret, ?_⟩
      cases hopen : (w.fopen t) (w1_slave s.dev) with
      | none =>
        have := sensors_read_of_open_fails (w.fopen t) s hopen
        rw [this] at hs2 ⊢
        subst hs2
        exact ⟨rfl, rfl, rfl, Or.inr ⟨rfl, hs⟩⟩
      | some text =>
        have := sensors_read_of_opened (w.fopen t) s text hopen
        rw [this] at hs2
        subst hs2
        exact ⟨rfl, rfl, rfl, Or.inl rfl⟩

theorem read_loop_retry (w : World) (s : sensors_t) (hs : s.value = SENSOR_ERROR)
    (n : Int) (s2 : sensors_t) (hn : n ≠ SENSOR_ERROR) :
    ∀ (k fuel t : Nat), k < fuel →
      (∀ j < k, (sensors_read (w.fopen (t + j)) s).1 = SENSOR_ERROR) →
      sensors_read (w.fopen (t + k)) s = (n, s2) →
      (read_loop w fuel t s).2 = some (n, s2) ∧ (read_loop w fuel t s).1.length = k + 1 ∧
        ∀ i < k + 1, ∃ c ∈ (read_loop w fuel t s).1, c.clock = t + i
  | _, 0, _, hk, _, _ => absurd hk (Nat.not_lt_zero _)
  | 0, fuel + 1, t, _, _, hlast => by
    simp only [Nat.add_zero] at hlast
    have hret : ¬ (sensors_read (w.fopen t) s).1 = SENSOR_ERROR := by rw [hlast]; exact hn
    simp only [read_loop, hlast, if_neg hn, List.length_singleton, Nat.zero_add,
      List.mem_singleton, true_and]
    intro i hi
    exact ⟨_, rfl, by simp; omega⟩
  | k + 1, fuel + 1, t, hk, hfail, hlast => by
    have hret : (sensors_read (w.fopen t) s).1 = SENSOR_ERROR := by
      simpa using hfail 0 (Nat.succ_pos _)
    have hst := sensors_read_keeps_reset (w.fopen t) s hs hret
    have ih := read_loop_retry w s hs n s2 hn k fuel (t + 1) (by omega)
      (fun j hj => by
        have := hfail (j + 1) (by omega)
        rwa [show t + (j + 1) = t + 1 + j by omega] at this)
      (by rwa [show t + (k + 1) = t + 1 + k by omega] at hlast)
    obtain ⟨h1, h2, h3⟩ := ih
    simp only [read_loop, hret, if_true, hst, h1, List.length_cons, h2, true_and,
      List.mem_cons]
    intro i hi
    cases i with
    | zero => exact ⟨_, Or.inl rfl, rfl⟩
    | succ i =>
      obtain ⟨c, hc, hcl⟩ := h3 i (by omega)
      exact ⟨c, Or.inr hc, by rw [hcl]; omega⟩

/-! ## Lemmas on the acquisition loop -/

theorem acquire_cons (w : World) (fuel t : Nat) (s : sensors_t) (rest : List sensors_t)
    (calls : List Call) (v : Int) (s2 : sensors_t)
    (h : read_loop w fuel t (sensors_reset s) = (calls, some (v, s2))) :
    acquire w fuel t (s :: rest) =
      (calls :: (acquire w fuel (t + calls.length) rest).1,
        ((acquire w fuel (t + calls.length) rest).2).map
          (fun acq => { sensor := s2, calls := calls, report := report_of v s2 } :: acq)) := by
  simp only [acquire, h]
  cases (acquire w fuel (t + calls.length) rest).2 <;> rfl

theorem acquire_cons_none (w : World) (fuel t : Nat) (s : sensors_t) (rest : List sensors_t)
    (calls : List Call) (h : read_loop w fuel t (sensors_reset s) = (calls, none)) :
    acquire w fuel t (s :: rest) = ([calls], none) := by
  simp only [acquire, h]

theorem acquire_calls (w : World) (fuel : Nat) :
    ∀ (sensors : List sensors_t) (t : Nat), ∀ calls ∈ (acquire w fuel t sensors).1,
      ∃ s ∈ sensors, ∃ t2, calls = (read_loop w fuel t2 (sensors_reset s)).1
  | [], _ => by simp [acquire]
  | s :: rest, t => by
    intro calls hc
    cases hr : read_loop w fuel t (sensors_reset s) with
    | mk cs res =>
      cases res with
      | none =>
        rw [acquire_cons_none w fuel t s rest cs hr, List.mem_singleton] at hc
        exact ⟨s, List.mem_cons_self _ _, t, by rw [hc, hr]⟩
      | some r =>
        obtain ⟨v, s2⟩ := r
        rw [acquire_cons w fuel t s rest cs v s2 hr, List.mem_cons] at hc
        rcases hc with hc | hc
        · exact ⟨s, List.mem_cons_self _ _, t, by rw [hc, hr]⟩
        · obtain ⟨s3, hs3, t2, h⟩ := acquire_calls w fuel rest _ calls hc
          exact ⟨s3, List.mem_cons_of_mem _ hs3, t2, h⟩

theorem acquire_result (w : World) (fuel : Nat) :
    ∀ (sensors : List sensors_t) (t : Nat) (acq : List Acquired),
      (acquire w fuel t sensors).2 = some acq →
        acq.map (fun a => a.sensor.id) = sensors.map (fun s => s.id) ∧
          acq.length = sensors.length
  | [], _, acq => by
    intro h
    simp only [acquire, Option.some.injEq] at h
    subst h
    exact ⟨rfl, rfl⟩
  | s :: rest, t, acq => by
    intro h
    cases hr : read_loop w fuel t (sensors_reset s) with
    | mk cs res =>
      cases res with
      | none =>
        rw [acquire_cons_none w fuel t s rest cs hr] at h
        exact absurd h (by simp)
      | some r =>
        obtain ⟨v, s2⟩ := r
        rw [acquire_cons w fuel t s rest cs v s2 hr] at h
        cases hrest : (acquire w fuel (t + cs.length) rest).2 with
        | none => rw [hrest] at h; exact absurd h (by simp)
        | some acq2 =>
          rw [hrest] at h
          simp only [Option.map_some', Option.some.injEq] at h
          subst h
          obtain ⟨ih1, ih2⟩ := acquire_result w fuel rest _ acq2 hrest
          have hid : s2.id = s.id :=
            (read_loop_result w (sensors_reset s) rfl fuel t v s2 (by rw [hr])).2.1
          simp only [List.map_cons, List.length_cons, ih1, ih2, hid, and_self]

/-! ## Lemmas on the saving phase -/

theorem update_all_statements (w : World) (db : Nat) (timestamp : Int) :
    ∀ (sensors : List sensors_t) (i : Nat),
      (update_all w db timestamp i sensors).map Prod.fst =
        sensors.map (fun s => { time := to_int32 timestamp, id := s.id, value := s.value })
  | [], _ => rfl
  | s :: rest, i => by
    simp only [update_all, List.map_cons, sensors_update_db,
      update_all_statements w db timestamp rest (i + 1)]

theorem update_all_length (w : World) (db : Nat) (timestamp : Int)
    (sensors : List sensors_t) (i : Nat) :
    (update_all w db timestamp i sensors).length = sensors.length := by
  have h := congrArg List.length (update_all_statements w db timestamp sensors i)
  simpa using h

theorem save_all_open (w : World) (timestamp : Int) (sensors : List sensors_t) :
    ∀ (dbfile : List String) (db : Nat),
      (∀ (i : Nat) (path : String), dbfile[i]? = some path →
        w.sqlite3_open (db + i) path = true) →
      (save w timestamp sensors db dbfile).1 = 0 ∧
        (save w timestamp sensors db dbfile).2.map Store.path = dbfile ∧
        ∀ st ∈ (save w timestamp sensors db dbfile).2, st.opened = true ∧
          st.queries.map Prod.fst =
            sensors.map (fun s => { time := to_int32 timestamp, id := s.id, value := s.value })
  | [], _, _ => by simp [save]
  | file :: rest, db, hopen => by
    have h0 : w.sqlite3_open db file = true := by
      simpa using hopen 0 file (by simp)
    have ih := save_all_open w timestamp sensors rest (db + 1) (fun i path hi => by
      have := hopen (i + 1) path (by simpa using hi)
      rwa [show db + (i + 1) = db + 1 + i by omega] at this)
    obtain ⟨ih1, ih2, ih3⟩ := ih
    simp only [save, h0, if_true, ih1, List.map_cons, ih2, List.mem_cons, true_and]
    intro st hst
    rcases hst with hst | hst
    · subst hst
      exact ⟨rfl, update_all_statements w db timestamp sensors 0⟩
    · exact ih3 st hst

theorem save_first_failure (w : World) (timestamp : Int) (sensors : List sensors_t)
    (file : String) (after : List String) :
    ∀ (before : List String) (db : Nat),
      (∀ (i : Nat) (path : String), before[i]? = some path →
        w.sqlite3_open (db + i) path = true) →
      w.sqlite3_open (db + before.length) file = false →
      save w timestamp sensors db (before ++ file :: after) =
        (1, (save w timestamp sensors db before).2 ++
          [{ path := file, opened := false, queries := [] }])
  | [], db, _, hfail => by
    simp only [List.length_nil, Nat.add_zero] at hfail
    simp [save, hfail]
  | b :: before, db, hopen, hfail => by
    have h0 : w.sqlite3_open db b = true := by
      simpa using hopen 0 b (by simp)
    have ih := save_first_failure w timestamp sensors file after before (db + 1)
      (fun i path hi => by
        have := hopen (i + 1) path (by simpa using hi)
        rwa [show db + (i + 1) = db + 1 + i by omega] at this)
      (by
        rwa [show db + (b :: before).length = db + 1 + before.length by
          simp only [List.length_cons]; omega] at hfail)
    rw [List.cons_append, save, if_pos h0, ih, save, if_pos h0]
    rfl

theorem save_status (w : World) (timestamp : Int) (sensors : List sensors_t) :
    ∀ (dbfile : List String) (db : Nat),
      ((save w timestamp sensors db dbfile).1 = 0 ∨
        (save w timestamp sensors db dbfile).1 = 1) ∧
      ((save w timestamp sensors db dbfile).1 ≠ 0 ↔
        ∃ (i : Nat) (path : String), dbfile[i]? = some path ∧
          w.sqlite3_open (db + i) path = false)
  | [], _ => by simp [save]
  | file :: rest, db => by
    by_cases h0 : w.sqlite3_open db file = true
    · obtain ⟨ih1, ih2⟩ := save_status w timestamp sensors rest (db + 1)
      simp only [save, h0, if_true]
      refine ⟨ih1, ih2.trans ⟨?_, ?_⟩⟩
      · rintro ⟨i, path, hi, hf⟩
        exact ⟨i + 1, path, by simpa using hi, by
          rwa [show db + (i + 1) = db + 1 + i by omega]⟩
      · rintro ⟨i, path, hi, hf⟩
        cases i with
        | zero =>
          simp only [List.getElem?_cons_zero, Option.some.injEq] at hi
          subst hi
          rw [Nat.add_zero, h0] at hf
          exact absurd hf (by simp)
        | succ i =>
          exact ⟨i, path, by simpa using hi, by
            rwa [show db + (i + 1) = db + 1 + i by omega] at hf⟩
    · rw [save, if_neg h0]
      exact ⟨Or.inr rfl, ⟨fun _ => ⟨0, file, by simp, by simpa using h0⟩,
        fun _ => by simp⟩⟩

theorem save_times (w : World) (timestamp : Int) (sensors : List sensors_t) :
    ∀ (dbfile : List String) (db : Nat), ∀ st ∈ (save w timestamp sensors db dbfile).2,
      ∀ q ∈ st.queries, q.1.time = to_int32 timestamp
  | [], _ => by simp [save]
  | file :: rest, db => by
    intro st hst q hq
    by_cases h0 : w.sqlite3_open db file = true
    · simp only [save, h0, if_true, List.mem_cons] at hst
      rcases hst with hst | hst
      · subst hst
        have hmem : q.1 ∈ (update_all w db timestamp 0 sensors).map Prod.fst :=
          List.mem_map_of_mem _ hq
        rw [update_all_statements] at hmem
        obtain ⟨s, _, hs⟩ := List.mem_map.mp hmem
        rw [← hs]
      · exact save_times w timestamp sensors rest (db + 1) st hst q hq
    · simp only [save, h0, Bool.false_eq_true, if_false, List.mem_singleton] at hst
      subst hst
      exact absurd hq (by simp)

/-! ## Lemmas on `main` and on the concrete inputs -/

theorem main_of_acquire (w : World) (fuel : Nat) (sensors : List sensors_t)
    (dbfile : List String) (acq : List Acquired)
    (h : (acquire w fuel 0 sensors).2 = some acq) :
    main w fuel sensors dbfile =
      some { status := (save w (w.time 0) (acq.map Acquired.sensor) 0 dbfile).1,
             timestamp := w.time 0,
             acquired := acq,
             stores := (save w (w.time 0) (acq.map Acquired.sensor) 0 dbfile).2 } := by
  simp only [main, h]

theorem main_some (w : World) (fuel : Nat) (sensors : List sensors_t)
    (dbfile : List String) (run : Run) (h : main w fuel sensors dbfile = some run) :
    ∃ acq, (acquire w fuel 0 sensors).2 = some acq ∧
      run = { status := (save w (w.time 0) (acq.map Acquired.sensor) 0 dbfile).1,
              timestamp := w.time 0,
              acquired := acq,
              stores := (save w (w.time 0) (acq.map Acquired.sensor) 0 dbfile).2 } := by
  cases hacq : (acquire w fuel 0 sensors).2 with
  | none => simp [main, hacq] at h
  | some acq =>
    rw [main_of_acquire w fuel sensors dbfile acq hacq, Option.some.injEq] at h
    exact ⟨acq, rfl, h.symm⟩

theorem read_loop_exec (w : World) (exec : Nat → Nat → Insert → Bool) :
    ∀ (fuel t : Nat) (s : sensors_t),
      read_loop { w with sqlite3_exec := exec } fuel t s = read_loop w fuel t s
  | 0, _, _ => rfl
  | fuel + 1, t, s => by
    simp only [read_loop, read_loop_exec w exec fuel]

theorem acquire_exec (w : World) (exec : Nat → Nat → Insert → Bool) (fuel : Nat) :
    ∀ (sensors : List sensors_t) (t : Nat),
      acquire { w with sqlite3_exec := exec } fuel t sensors = acquire w fuel t sensors
  | [], _ => rfl
  | s :: rest, t => by
    simp only [acquire, read_loop_exec w exec, acquire_exec w exec fuel rest]

theorem rows_of_sensors (timestamp : Int) (acq : List Acquired) :
    (acq.map Acquired.sensor).map
        (fun s => ({ time := to_int32 timestamp, id := s.id, value := s.value } : Insert)) =
      acq.map (fun a => { time := to_int32 timestamp, id := a.sensor.id, value := a.sensor.value }) := by
  rw [List.map_map]; rfl

theorem reading_good_text : reading good_text 20875 :=
  ⟨"2a 00 4b 46 ff ff 0e 10 84 : crc=84 YES".toList, "2a 00 4b 46 ff ff 0e 10 84".toList,
    "20875".toList, [], ['\n'], by decide, by decide, by decide, by decide, by decide,
    by decide, by decide, by decide, by decide,
    ⟨"20875".toList, by decide, by decide, Or.inl ⟨rfl, by decide⟩⟩,
    by simp, by simp, by decide, by decide⟩

theorem reading_minus_text : reading minus_text (-1250) :=
  ⟨"fe ff 4b 46 ff ff 10 10 5e : crc=5e YES".toList, "fe ff 4b 46 ff ff 10 10 5e".toList,
    "-1250".toList, [], ['\n'], by decide, by decide, by decide, by decide, by decide,
    by decide, by decide, by decide, by decide,
    ⟨"1250".toList, by decide, by decide, Or.inr (Or.inr ⟨rfl, by decide⟩)⟩,
    by simp, by simp, by decide, by decide⟩

theorem transient_bad_text : transient bad_text :=
  Or.inr ⟨(fgets_chars 1023 bad_text).1, (fgets_chars 1023 bad_text).2, by decide,
    Or.inl (by decide)⟩

set_option maxRecDepth 100000

/-! ## The claims on `sensors_read` -/

/-- C1, as amended: when the device file opens and its first line does not
contain `YES`, `sensors_read` returns the value field as it was at the entry of
the call and leaves the sensor unchanged; for a sensor that was just reset this
is `SENSOR_ERROR`, never `SENSOR_INVALID` or a value parsed from the text. -/
theorem C1_no_yes_returns_entry_value (fs : Files) (s : sensors_t) (text : List Char)
    (hopen : fs (w1_slave s.dev) = some text)
    (hno : ¬ "YES".toList <:+: first_line text) :
    sensors_read fs s = (s.value, s) ∧
      sensors_read fs (sensors_reset s) = (SENSOR_ERROR, sensors_reset s) :=
  ⟨sensors_read_of_no_yes fs s text hopen hno,
    sensors_read_of_no_yes fs (sensors_reset s) text hopen hno⟩

/-- C1, instance: the bad sample of the source comments, read into the first
sensor. -/
theorem C1_no_yes_witness :
    sensors_read (fun _ => some bad_text) ambiant = (0, ambiant) ∧
      sensors_read (fun _ => some bad_text) (sensors_reset ambiant) =
        (SENSOR_ERROR, sensors_reset ambiant) :=
  C1_no_yes_returns_entry_value (fun _ => some bad_text) ambiant bad_text rfl (by decide)

/-- C1, as stated, fails: the first line of `bad_text` ends in `crc=c9 NO`, the
value field holds 20875 from an earlier attempt, and `sensors_read` returns
20875 instead of `SENSOR_ERROR`. -/
theorem C1_counterexample :
    ¬ "YES".toList <:+: first_line bad_text ∧
      (sensors_read (fun _ => some bad_text) { ambiant with value := 20875 }).1 = 20875 ∧
      (sensors_read (fun _ => some bad_text) { ambiant with value := 20875 }).1 ≠
        SENSOR_ERROR := by
  decide

/-- C2, as amended: when the device file opens on a status text with the
reading `n` (see `reading`: both lines fit the 1024-byte buffer and hold no
NUL, the first line contains `YES`, and the first ` t=` of the second line is
followed at once by a signed decimal integer writing `n`, which fits 32 bits),
`sensors_read` returns exactly `n` and stores `n` in the value field. -/
theorem C2_reading_is_returned (fs : Files) (s : sensors_t) (text : List Char) (n : Int)
    (hopen : fs (w1_slave s.dev) = some text) (h : reading text n) :
    sensors_read fs s = (n, { s with value := n }) :=
  sensors_read_of_reading fs s text n hopen h

/-- C2, instance: the two lines of the good sample yield 20875. -/
theorem C2_reading_witness :
    sensors_read (fun _ => some good_text) ambiant = (20875, { ambiant with value := 20875 }) :=
  C2_reading_is_returned (fun _ => some good_text) ambiant good_text 20875 rfl
    reading_good_text

/-- C2, as stated, fails: the second line of `twice_text` contains ` t=`
followed at once by 20875 and the end of the line, the first line contains
`YES`, and `sensors_read` returns 1, the number after the first ` t=`. -/
theorem C2_counterexample :
    twice_text =
        "2a 00 4b 46 ff ff 0e 10 84 : crc=84 YES".toList ++
          '\n' :: ("2a 00 4b 46 ff ff 0e 10 84 t=1".toList ++ " t=".toList ++ "20875".toList ++
            ['\n']) ∧
      sensors_read (fun _ => some twice_text) ambiant = (1, { ambiant with value := 1 }) := by
  decide

/-- C9, as amended: `sensors_value` returns `SENSOR_ERROR` on every buffer
without ` t=`; and when the device file opens on a text whose first line has at
most 1022 characters, no NUL and contains `YES`, and that has a second line
(some character follows the first newline) without ` t=`, `sensors_read`
returns `SENSOR_ERROR` and stores it, whatever the value field held. -/
theorem C9_no_marker_is_transient (fs : Files) (s : sensors_t) (l1 rest : List Char)
    (hopen : fs (w1_slave s.dev) = some (l1 ++ '\n' :: rest))
    (hlen : l1.length ≤ 1022) (hnl : '\n' ∉ l1) (hnul : NUL ∉ l1)
    (hyes : "YES".toList <:+: l1) (hrest : rest ≠ [])
    (hno : ¬ " t=".toList <:+: first_line rest) :
    (∀ buffer : List Char, ¬ " t=".toList <:+: buffer →
        sensors_value buffer = SENSOR_ERROR) ∧
      sensors_read fs s = (SENSOR_ERROR, { s with value := SENSOR_ERROR }) :=
  ⟨sensors_value_of_no_marker,
    sensors_read_of_no_marker fs s l1 rest hopen hlen hnl hnul hyes hrest hno⟩

/-- C9, instance: a good checksum line followed by a data line without marker,
read into a sensor whose value field holds 20875. -/
theorem C9_no_marker_witness :
    sensors_value "2a 00 4b 46 ff ff 0e 10 84\n".toList = SENSOR_ERROR ∧
      sensors_read (fun _ => some no_marker_text) { ambiant with value := 20875 } =
        (SENSOR_ERROR, { ambiant with value := SENSOR_ERROR }) :=
  ⟨(C9_no_marker_is_transient (fun _ => some no_marker_text) { ambiant with value := 20875 }
      "2a 00 4b 46 ff ff 0e 10 84 : crc=84 YES".toList "2a 00 4b 46 ff ff 0e 10 84\n".toList
      (by decide) (by decide) (by decide) (by decide) (by decide) (by decide) (by decide)).1
      _ (by decide),
    (C9_no_marker_is_transient (fun _ => some no_marker_text) { ambiant with value := 20875 }
      "2a 00 4b 46 ff ff 0e 10 84 : crc=84 YES".toList "2a 00 4b 46 ff ff 0e 10 84\n".toList
      (by decide) (by decide) (by decide) (by decide) (by decide) (by decide) (by decide)).2⟩

/-- C9, as stated, fails: the first line of `long_text` contains `YES`, its
second line `x` has no ` t=`, and `sensors_read` returns 5: the first line is
longer than the buffer, so the second `fgets` reads the end of the first
line, which holds ` t=5`. -/
theorem C9_counterexample :
    "YES".toList <:+: first_line long_text ∧
      long_text = first_line long_text ++ '\n' :: "x\n".toList ∧
      ¬ " t=".toList <:+: "x".toList ∧
      sensors_read (fun _ => some long_text) ambiant = (5, { ambiant with value := 5 }) ∧
      (5 : Int) ≠ SENSOR_ERROR := by
  decide

/-! ## The claims on the acquisition loop -/

/-- C5: when the device path of a sensor cannot be opened, `sensors_read`
returns `SENSOR_INVALID` and leaves the sensor (its value field included)
unchanged; the retry loop of `main` makes exactly one call for that sensor, and
the acquisition loop then processes the rest of the registry. -/
theorem C5_device_error_is_not_retried (w : World) (fuel t : Nat) (s : sensors_t)
    (rest : List sensors_t) (hopen : w.fopen t (w1_slave s.dev) = none) :
    (∀ s0 : sensors_t, s0.dev = s.dev →
        sensors_read (w.fopen t) s0 = (SENSOR_INVALID, s0)) ∧
      read_loop w (fuel + 1) t (sensors_reset s) =
        ([{ clock := t, entry := sensors_reset s, ret := SENSOR_INVALID }],
          some (SENSOR_INVALID, sensors_reset s)) ∧
      acquire w (fuel + 1) t (s :: rest) =
        ([{ clock := t, entry := sensors_reset s, ret := SENSOR_INVALID }] ::
            (acquire w (fuel + 1) (t + 1) rest).1,
          ((acquire w (fuel + 1) (t + 1) rest).2).map (fun acq =>
            { sensor := sensors_reset s,
              calls := [{ clock := t, entry := sensors_reset s, ret := SENSOR_INVALID }],
              report := Report.device_error s.id } :: acq)) := by
  have hread : ∀ s0 : sensors_t, s0.dev = s.dev →
      sensors_read (w.fopen t) s0 = (SENSOR_INVALID, s0) := fun s0 h0 =>
    sensors_read_of_open_fails (w.fopen t) s0 (by rw [h0]; exact hopen)
  have hloop : read_loop w (fuel + 1) t (sensors_reset s) =
      ([{ clock := t, entry := sensors_reset s, ret := SENSOR_INVALID }],
        some (SENSOR_INVALID, sensors_reset s)) := by
    simp only [read_loop, hread (sensors_reset s) rfl, if_neg SENSOR_INVALID_ne_ERROR]
  refine ⟨hread, hloop, ?_⟩
  rw [acquire_cons w (fuel + 1) t s rest _ _ _ hloop]
  rfl

/-- C5, instance: the device of the first sensor is absent; one call, then the
second sensor is read. -/
theorem C5_device_error_witness :
    (acquire world_absent 1 0 __sensors).2 =
      some [{ sensor := sensors_reset ambiant,
              calls := [{ clock := 0, entry := sensors_reset ambiant, ret := SENSOR_INVALID }],
              report := Report.device_error 1 },
            { sensor := { rack with value := 20875 },
              calls := [{ clock := 1, entry := sensors_reset rack, ret := 20875 }],
              report := Report.value_read 2 "rack" 20875 }] := by
  have h := (C5_device_error_is_not_retried world_absent 0 0 ambiant [rack] (by decide)).2.2
  have h2 := congrArg Prod.snd h
  exact h2.trans (by decide)

/-- C4, as amended: for a reading `n` other than the two markers -1250 and
-999999, if the first `k` attempts of a sensor are transient failures and
attempt `k + 1` opens a status text with the reading `n`, the retry loop of
`main` (with fuel for more than `k` iterations) makes exactly `k + 1` calls of
`sensors_read`, the sensor takes the branch of a sensor that was read, and `n`
is the value field from which the INSERT statement is built. -/
theorem C4_retry_until_reading (w : World) (fuel t k : Nat) (s : sensors_t)
    (rest : List sensors_t) (text : List Char) (n : Int)
    (hfail : ∀ j < k, ∃ bad, w.fopen (t + j) (w1_slave s.dev) = some bad ∧ transient bad)
    (hopen : w.fopen (t + k) (w1_slave s.dev) = some text) (hread : reading text n)
    (hne : n ≠ SENSOR_ERROR) (hni : n ≠ SENSOR_INVALID) (hfuel : k < fuel) :
    ∃ calls : List Call,
      read_loop w fuel t (sensors_reset s) = (calls, some (n, { s with value := n })) ∧
      calls.length = k + 1 ∧
      (∀ i < k + 1, ∃ c ∈ calls, c.clock = t + i) ∧
      acquire w fuel t (s :: rest) =
        (calls :: (acquire w fuel (t + (k + 1)) rest).1,
          ((acquire w fuel (t + (k + 1)) rest).2).map (fun acq =>
            { sensor := { s with value := n }, calls := calls,
              report := Report.value_read s.id s.name n } :: acq)) ∧
      ∀ (exec : Insert → Bool) (timestamp : Int),
        (sensors_update_db exec timestamp { s with value := n }).1 =
          { time := to_int32 timestamp, id := s.id, value := n } := by
  have h1 : ∀ j < k, (sensors_read (w.fopen (t + j)) (sensors_reset s)).1 = SENSOR_ERROR := by
    intro j hj
    obtain ⟨bad, hb, htr⟩ := hfail j hj
    rw [sensors_read_of_transient (w.fopen (t + j)) (sensors_reset s) bad rfl hb htr]
  have h2 : sensors_read (w.fopen (t + k)) (sensors_reset s) = (n, { s with value := n }) :=
    sensors_read_of_reading (w.fopen (t + k)) (sensors_reset s) text n hopen hread
  obtain ⟨r1, r2, r3⟩ := read_loop_retry w (sensors_reset s) rfl n { s with value := n } hne
    k fuel t hfuel h1 h2
  have hloop : read_loop w fuel t (sensors_reset s) =
      ((read_loop w fuel t (sensors_reset s)).1, some (n, { s with value := n })) :=
    Prod.ext rfl r1
  refine ⟨(read_loop w fuel t (sensors_reset s)).1, hloop, r2, r3, ?_, fun _ _ => rfl⟩
  rw [acquire_cons w fuel t s rest _ _ _ hloop, r2]
  simp only [report_of, if_neg hni]

/-- C4, instance: the first sensor fails its checksum twice and then reports
20875: three calls, and 20875 is left for the INSERT statement. -/
theorem C4_retry_witness :
    ∃ calls : List Call,
      read_loop world_retry 3 0 (sensors_reset ambiant) =
        (calls, some (20875, { ambiant with value := 20875 })) ∧ calls.length = 3 := by
  obtain ⟨calls, h1, h2, _⟩ := C4_retry_until_reading world_retry 3 0 2 ambiant [rack]
    good_text 20875
    (fun j hj => ⟨bad_text, by
      have hlt : (0 + j < 2) := by omega
      simp only [world_retry, ambiant, if_true, hlt], transient_bad_text⟩)
    (by decide) reading_good_text (by decide) (by decide) (by decide)
  exact ⟨calls, h1, h2⟩

/-- C4, as stated, fails at `n = -1250`: the first attempt of the first sensor
opens a checksum-valid text with the reading -1250 (so `k = 0`), yet the loop
makes two calls and leaves 20875, the reading of the second attempt: the
reading -1250 is taken for `SENSOR_ERROR` and retried. -/
theorem C4_counterexample :
    world_minus.fopen 0 (w1_slave ambiant.dev) = some minus_text ∧
      reading minus_text (-1250) ∧
      read_loop world_minus 3 0 (sensors_reset ambiant) =
        ([{ clock := 0, entry := sensors_reset ambiant, ret := -1250 },
          { clock := 1, entry := sensors_reset ambiant, ret := 20875 }],
          some (20875, { ambiant with value := 20875 })) :=
  ⟨by decide, reading_minus_text, by decide⟩

/-- C10: in the acquisition loop of `main`, whatever the world answers and
however long the loop runs, every call of `sensors_read` is entered with the
value field equal to `SENSOR_ERROR`; each call returns what `sensors_read`
computes from the file system of its own tick; an attempt that opens the file
and is a transient failure returns `SENSOR_ERROR` and is followed by a further
call on the same sensor (unless the fuel of the model ends there); and the
value returned is `SENSOR_INVALID` for a path that does not open,
`SENSOR_ERROR`, or the value parsed from the second buffer of that same
attempt. -/
theorem C10_every_call_enters_reset (w : World) (fuel t : Nat) (sensors : List sensors_t) :
    ∀ calls ∈ (acquire w fuel t sensors).1, ∀ c ∈ calls,
      c.entry.value = SENSOR_ERROR ∧
      c.ret = (sensors_read (w.fopen c.clock) c.entry).1 ∧
      (∀ text, w.fopen c.clock (w1_slave c.entry.dev) = some text → transient text →
        c.ret = SENSOR_ERROR ∧
          ((∃ c2 ∈ calls, c2.clock = c.clock + 1 ∧ c2.entry = c.entry) ∨
            calls.length = fuel)) ∧
      ((c.ret = SENSOR_INVALID ∧ w.fopen c.clock (w1_slave c.entry.dev) = none) ∨
        c.ret = SENSOR_ERROR ∨
        ∃ text b1 fp1 b2 fp2, w.fopen c.clock (w1_slave c.entry.dev) = some text ∧
          fgets 1024 text = some (b1, fp1) ∧ fgets 1024 fp1 = some (b2, fp2) ∧
          c.ret = sensors_value b2) := by
  intro calls hcalls c hc
  obtain ⟨s, _, t2, hloop⟩ := acquire_calls w fuel sensors t calls hcalls
  subst hloop
  obtain ⟨hentry, hret, _, hnext⟩ := read_loop_calls w (sensors_reset s) rfl fuel t2 c hc
  have hval : c.entry.value = SENSOR_ERROR := by rw [hentry]; rfl
  refine ⟨hval, by rw [hentry]; exact hret, ?_, ?_⟩
  · intro text hopen htr
    have he : c.ret = SENSOR_ERROR := by
      rw [hret, ← hentry,
        sensors_read_of_transient (w.fopen c.clock) c.entry text hval hopen htr]
    exact ⟨he, hnext he⟩
  · rw [hret, ← hentry]
    rcases sensors_read_origin (w.fopen c.clock) c.entry with h | h | h
    · exact Or.inl h
    · exact Or.inr (Or.inl (h.trans hval))
    · exact Or.inr (Or.inr h)

/-- C10, instance: the three calls made for the first sensor in `world_retry`
are all entered with the value field at `SENSOR_ERROR`. -/
theorem C10_witness :
    [{ clock := 0, entry := sensors_reset ambiant, ret := SENSOR_ERROR },
        { clock := 1, entry := sensors_reset ambiant, ret := SENSOR_ERROR },
        { clock := 2, entry := sensors_reset ambiant, ret := 20875 }] ∈
        (acquire world_retry 3 0 __sensors).1 ∧
      ∀ c ∈ [({ clock := 0, entry := sensors_reset ambiant, ret := SENSOR_ERROR } : Call),
          { clock := 1, entry := sensors_reset ambiant, ret := SENSOR_ERROR },
          { clock := 2, entry := sensors_reset ambiant, ret := 20875 }],
        c.entry.value = SENSOR_ERROR :=
  ⟨by decide, fun c hc =>
    (C10_every_call_enters_reset world_retry 3 0 __sensors _ (by decide) c hc).1⟩

/-! ## The claims on the saving phase -/

/-- C3, as amended: in a run of `main` in which every store opens, the saving
phase sends to each store target exactly one INSERT statement per sensor of the
registry, N statements for N sensors, built from the value field of each
sensor after the acquisition loop; a sensor that was marked device error gets
its statement like the others. -/
theorem C3_one_insert_per_sensor (w : World) (fuel : Nat) (sensors : List sensors_t)
    (dbfile : List String) (run : Run) (hrun : main w fuel sensors dbfile = some run)
    (hopen : ∀ (i : Nat) (path : String), dbfile[i]? = some path →
      w.sqlite3_open i path = true) :
    run.acquired.length = sensors.length ∧
      run.stores.map Store.path = dbfile ∧
      ∀ st ∈ run.stores, st.queries.length = sensors.length ∧
        ∀ a ∈ run.acquired,
          ({ time := to_int32 run.timestamp, id := a.sensor.id, value := a.sensor.value } : Insert) ∈
            st.queries.map Prod.fst := by
  obtain ⟨acq, hacq, hr⟩ := main_some w fuel sensors dbfile run hrun
  subst hr
  obtain ⟨_, hlen⟩ := acquire_result w fuel sensors 0 acq hacq
  obtain ⟨_, hpath, hst⟩ := save_all_open w (w.time 0) (acq.map Acquired.sensor) dbfile 0
    (fun i path hi => by rw [Nat.zero_add]; exact hopen i path hi)
  refine ⟨hlen, hpath, fun st hmem => ?_⟩
  obtain ⟨_, hq⟩ := hst st hmem
  rw [rows_of_sensors] at hq
  constructor
  · have := congrArg List.length hq
    simpa [hlen] using this
  · intro a ha
    rw [hq]
    exact List.mem_map_of_mem _ ha

/-- C3, instance: the registry of the program in `world_retry`; two statements
in each of the two stores. -/
theorem C3_one_insert_witness :
    ∃ run, main world_retry 3 __sensors __dbfile = some run ∧
      ∀ st ∈ run.stores, st.queries.length = 2 := by
  cases h : main world_retry 3 __sensors __dbfile with
  | none => exact absurd h (by decide)
  | some run =>
    exact ⟨run, rfl, fun st hst =>
      ((C3_one_insert_per_sensor world_retry 3 __sensors __dbfile run h
        (fun _ _ _ => rfl)).2.2 st hst).1⟩

/-- C3, as stated, fails: in `world_absent` the registry has N = 2 sensors of
which K = 1 has a device path that cannot be opened and is marked device error,
every store opens, and each store receives 2 statements, not N - K = 1: the
absent sensor is inserted with the value -1250. -/
theorem C3_counterexample :
    (main world_absent 1 __sensors __dbfile).map
        (fun run => (run.acquired.map Acquired.report,
          run.stores.map (fun st => (st.opened, st.queries.map Prod.fst)))) =
      some ([Report.device_error 1, Report.value_read 2 "rack" 20875],
        [(true, [{ time := 1700000000, id := 1, value := -1250 },
                 { time := 1700000000, id := 2, value := 20875 }]),
         (true, [{ time := 1700000000, id := 1, value := -1250 },
                 { time := 1700000000, id := 2, value := 20875 }])]) := by
  decide

/-- C6: when the acquisition loop completes, `main` returns, and its status is
non-zero exactly when some store path fails to open.  When `file` is the first
path that fails, the status is 1, the stores touched are the ones before it,
each opened and holding the full list of statements, followed by the failed
one, and nothing after it.  When every store opens the status is 0, whatever
the reports of the sensors and the results of the statements. -/
theorem C6_exit_status (w : World) (fuel : Nat) (sensors : List sensors_t)
    (dbfile : List String) (acq : List Acquired)
    (hacq : (acquire w fuel 0 sensors).2 = some acq) :
    ∃ run, main w fuel sensors dbfile = some run ∧ run.acquired = acq ∧
      (run.status ≠ 0 ↔
        ∃ (i : Nat) (path : String), dbfile[i]? = some path ∧ w.sqlite3_open i path = false) ∧
      (∀ (before : List String) (file : String) (after : List String),
        dbfile = before ++ file :: after →
        (∀ (i : Nat) (path : String), before[i]? = some path →
          w.sqlite3_open i path = true) →
        w.sqlite3_open before.length file = false →
        run.status = 1 ∧
          ∃ written : List Store,
            run.stores = written ++ [{ path := file, opened := false, queries := [] }] ∧
            written.map Store.path = before ∧
            ∀ st ∈ written, st.opened = true ∧
              st.queries.map Prod.fst =
                acq.map (fun a =>
                  { time := to_int32 (w.time 0), id := a.sensor.id, value := a.sensor.value })) ∧
      ((∀ (i : Nat) (path : String), dbfile[i]? = some path →
          w.sqlite3_open i path = true) → run.status = 0) := by
  refine ⟨_, main_of_acquire w fuel sensors dbfile acq hacq, rfl, ?_, ?_, ?_⟩
  · have h := (save_status w (w.time 0) (acq.map Acquired.sensor) dbfile 0).2
    simpa only [Nat.zero_add] using h
  · intro before file after hdb hopen hfail
    subst hdb
    have h := save_first_failure w (w.time 0) (acq.map Acquired.sensor) file after before 0
      (fun i path hi => by rw [Nat.zero_add]; exact hopen i path hi)
      (by rw [Nat.zero_add]; exact hfail)
    obtain ⟨_, hpath, hst⟩ := save_all_open w (w.time 0) (acq.map Acquired.sensor) before 0
      (fun i path hi => by rw [Nat.zero_add]; exact hopen i path hi)
    refine ⟨by rw [h], _, by rw [h], hpath, fun st hmem => ?_⟩
    obtain ⟨ho, hq⟩ := hst st hmem
    rw [rows_of_sensors] at hq
    exact ⟨ho, hq⟩
  · intro hopen
    exact (save_all_open w (w.time 0) (acq.map Acquired.sensor) dbfile 0
      (fun i path hi => by rw [Nat.zero_add]; exact hopen i path hi)).1

/-- C6, instance: in `world_store_fails` the second store does not open; the
status is 1 and the first store keeps its statements. -/
theorem C6_exit_status_witness :
    (main world_store_fails 1 __sensors __dbfile).map Run.status = some 1 := by
  obtain ⟨run, hrun, _, _, hfirst, _⟩ := C6_exit_status world_store_fails 1 __sensors __dbfile
    [{ sensor := { ambiant with value := 20875 },
       calls := [{ clock := 0, entry := sensors_reset ambiant, ret := 20875 }],
       report := Report.value_read 1 "ambiant" 20875 },
     { sensor := { rack with value := 20875 },
       calls := [{ clock := 1, entry := sensors_reset rack, ret := 20875 }],
       report := Report.value_read 2 "rack" 20875 }]
    (by decide)
  rw [hrun, Option.map_some',
    (hfirst ["temp.sqlite3"] "/tmp/fallback.sqlite3" [] rfl
      (fun i path hi => by
        cases i with
        | zero => rfl
        | succ i => simp at hi)
      rfl).1]

/-- C7, as amended: in every run of `main`, the timestamp is the system time
read once at clock 0, before the first call of `sensors_read`; all INSERT
statements, for every sensor and in every store, carry one and the same time
value, whatever the number of calls and the later values of the clock; and
when that timestamp fits a 32-bit `int`, the value they carry is the timestamp
itself. -/
theorem C7_single_timestamp (w : World) (fuel : Nat) (sensors : List sensors_t)
    (dbfile : List String) (run : Run) (hrun : main w fuel sensors dbfile = some run) :
    run.timestamp = w.time 0 ∧
      (∀ st ∈ run.stores, ∀ q ∈ st.queries, ∀ st2 ∈ run.stores, ∀ q2 ∈ st2.queries,
        q.1.time = q2.1.time) ∧
      (-2147483648 ≤ w.time 0 → w.time 0 ≤ 2147483647 →
        ∀ st ∈ run.stores, ∀ q ∈ st.queries, q.1.time = w.time 0) := by
  obtain ⟨acq, _, hr⟩ := main_some w fuel sensors dbfile run hrun
  subst hr
  have h := save_times w (w.time 0) (acq.map Acquired.sensor) dbfile 0
  refine ⟨rfl, fun st hst q hq st2 hst2 q2 hq2 => ?_, fun h1 h2 st hst q hq => ?_⟩
  · rw [h st hst q hq, h st2 hst2 q2 hq2]
  · rw [h st hst q hq]
    exact to_int32_of_fits (w.time 0) h1 h2

/-- C7, instance: in `world_retry` three calls are made before the second
sensor is read, and every statement carries the time of clock 0. -/
theorem C7_single_timestamp_witness :
    ∃ run, main world_retry 3 __sensors __dbfile = some run ∧
      ∀ st ∈ run.stores, ∀ q ∈ st.queries, q.1.time = 1700000000 := by
  cases h : main world_retry 3 __sensors __dbfile with
  | none => exact absurd h (by decide)
  | some run =>
    exact ⟨run, rfl, (C7_single_timestamp world_retry 3 __sensors __dbfile run h).2.2
      (by decide) (by decide)⟩

/-- C7, as stated, fails: in `world_late` the timestamp captured before the
first sensor is read is 2147483648, and every statement issued carries
-2147483648, the number `%d` prints for it. -/
theorem C7_counterexample :
    world_late.time 0 = 2147483648 ∧
      (main world_late 3 __sensors __dbfile).map
          (fun run => (run.timestamp, run.stores.map (fun st => st.queries.map Prod.fst))) =
        some (2147483648,
          [[{ time := -2147483648, id := 1, value := 20875 },
            { time := -2147483648, id := 2, value := 20875 }],
           [{ time := -2147483648, id := 1, value := 20875 },
            { time := -2147483648, id := 2, value := 20875 }]]) := by
  decide

/-- C8: in a run of `main` in which every store opens, every store target
receives the same sequence of INSERT statements, one per sensor in registry
order, built from the shared timestamp (as `%d` prints it) and the id and
value of each sensor;
every configured store is written; and with any other outcome of the
individual statements the run ends with the same status and the same
statements in every store. -/
theorem C8_same_rows_in_every_store (w : World) (fuel : Nat) (sensors : List sensors_t)
    (dbfile : List String) (run : Run) (hrun : main w fuel sensors dbfile = some run)
    (hopen : ∀ (i : Nat) (path : String), dbfile[i]? = some path →
      w.sqlite3_open i path = true) :
    (∀ st ∈ run.stores, st.queries.map Prod.fst =
        run.acquired.map (fun a =>
          { time := to_int32 (w.time 0), id := a.sensor.id, value := a.sensor.value })) ∧
      run.acquired.map (fun a => a.sensor.id) = sensors.map (fun s => s.id) ∧
      run.stores.map Store.path = dbfile ∧
      ∀ exec : Nat → Nat → Insert → Bool,
        ∃ run2, main { w with sqlite3_exec := exec } fuel sensors dbfile = some run2 ∧
          run2.status = run.status ∧
          run2.stores.map (fun st => st.queries.map Prod.fst) =
            run.stores.map (fun st => st.queries.map Prod.fst) := by
  obtain ⟨acq, hacq, hr⟩ := main_some w fuel sensors dbfile run hrun
  subst hr
  obtain ⟨hids, _⟩ := acquire_result w fuel sensors 0 acq hacq
  obtain ⟨hstat, hpath, hst⟩ := save_all_open w (w.time 0) (acq.map Acquired.sensor) dbfile 0
    (fun i path hi => by rw [Nat.zero_add]; exact hopen i path hi)
  have hrows : ∀ (w2 : World) (l : List Store), l.map Store.path = dbfile →
      (∀ st ∈ l, st.opened = true ∧ st.queries.map Prod.fst =
        (acq.map Acquired.sensor).map
          (fun s => ({ time := to_int32 (w.time 0), id := s.id, value := s.value } : Insert))) →
      l.map (fun st => st.queries.map Prod.fst) =
        List.replicate dbfile.length ((acq.map Acquired.sensor).map
          (fun s => ({ time := to_int32 (w.time 0), id := s.id, value := s.value } : Insert))) := by
    intro _ l hl hall
    rw [List.eq_replicate_iff]
    refine ⟨by rw [← hl]; simp, fun b hb => ?_⟩
    obtain ⟨st, hmem, hb2⟩ := List.mem_map.mp hb
    rw [← hb2]; exact (hall st hmem).2
  refine ⟨fun st hmem => by rw [← rows_of_sensors]; exact (hst st hmem).2, hids, hpath,
    fun exec => ?_⟩
  have hacq2 : (acquire { w with sqlite3_exec := exec } fuel 0 sensors).2 = some acq := by
    rw [acquire_exec]; exact hacq
  obtain ⟨hstat2, hpath2, hst2⟩ := save_all_open { w with sqlite3_exec := exec } (w.time 0)
    (acq.map Acquired.sensor) dbfile 0
    (fun i path hi => by rw [Nat.zero_add]; exact hopen i path hi)
  refine ⟨_, main_of_acquire { w with sqlite3_exec := exec } fuel sensors dbfile acq hacq2,
    ?_, ?_⟩
  · exact hstat2.trans hstat.symm
  · exact (hrows { w with sqlite3_exec := exec } _ hpath2 hst2).trans
      (hrows w _ hpath hst).symm

/-- C8, instance: in `world_retry`, also when every statement to the first
store fails, both stores receive the two rows in registry order. -/
theorem C8_same_rows_witness :
    ∃ run2, main { world_retry with sqlite3_exec := fun db _ _ => decide (db ≠ 0) } 3
        __sensors __dbfile = some run2 ∧
      run2.stores.map (fun st => st.queries.map Prod.fst) =
        [[{ time := 1700000000, id := 1, value := 20875 },
          { time := 1700000000, id := 2, value := 20875 }],
         [{ time := 1700000000, id := 1, value := 20875 },
          { time := 1700000000, id := 2, value := 20875 }]] := by
  cases h : main world_retry 3 __sensors __dbfile with
  | none => exact absurd h (by decide)
  | some run =>
    obtain ⟨run2, h2, _, hrows⟩ :=
      (C8_same_rows_in_every_store world_retry 3 __sensors __dbfile run h
        (fun _ _ _ => rfl)).2.2.2 (fun db _ _ => decide (db ≠ 0))
    refine ⟨run2, h2, hrows.trans ?_⟩
    have hr : some run = main world_retry 3 __sensors __dbfile := h.symm
    have : (some run).map (fun r : Run => r.stores.map (fun st => st.queries.map Prod.fst)) =
        some [[{ time := 1700000000, id := 1, value := 20875 },
          { time := 1700000000, id := 2, value := 20875 }],
         [{ time := 1700000000, id := 1, value := 20875 },
          { time := 1700000000, id := 2, value := 20875 }]] := by
      rw [hr]; decide
    simpa using this

end Sensors
